import Mathlib

/-!
Verification development for the CMAt audit bot (`src/main.py`).

The Python source is a Telegram bot: users hold a credit balance
(`available_audits`), submit `.sol` files for audit (`cmd_audit`), the
submission debits one credit, persists an `AuditRequest` row (status
`queued`) and pushes its id onto a Redis FIFO list; a single background
worker (`process_audit_queue`) pops ids, advances the request through
`queued -> processing -> completed | failed` and notifies the user.

The embedding below is a direct shallow translation: the database is an
explicit record of user and request rows, the Redis list is a `List Nat`,
external I/O (Telegram sends, file reads/writes, deletions) is recorded as
an explicit effect trace, and each external call that can raise is driven
by a boolean environment flag.  Exceptions escaping `process_audit_queue`
are modelled by an `Option WorkerCrash` component of the result.
-/

namespace CMAtBot

/-- The `status` column of `audit_requests`; the source uses the string
literals "queued", "processing", "completed", "failed". -/
inductive Status where
  | queued
  | processing
  | completed
  | failed
deriving DecidableEq, Repr

/-- The fields of `message.from_user` that `get_or_create_user` reads. -/
structure UserInfo where
  telegram_id : Nat
  first_name : Option String
  last_name : Option String
  username : Option String
deriving DecidableEq, Repr

/-- A row of the `users` table. -/
structure User where
  id : Nat
  telegram_id : Nat
  first_name : Option String
  last_name : Option String
  username : Option String
  available_audits : Int
deriving DecidableEq, Repr

/-- A row of the `audit_requests` table (timestamps omitted: no claim
mentions them). -/
structure AuditRequest where
  id : Nat
  user_id : Nat
  file_name : String
  file_path : String
  report_path : String
  status : Status
deriving DecidableEq, Repr

/-- The relational store: the two tables plus the autoincrement counters
for their primary keys. -/
structure DB where
  users : List User
  requests : List AuditRequest
  nextUserId : Nat
  nextReqId : Nat
deriving DecidableEq, Repr

/-- The full persistent state: the database plus the Redis list at key
`audit_queue` (ids are pushed with `rpush` and popped with `lpop`). -/
structure St where
  db : DB
  queue : List Nat
deriving DecidableEq, Repr

/-- `select(User).where(User.telegram_id == tid)` followed by `.first()`. -/
def findUserByTid (db : DB) (tid : Nat) : Option User :=
  db.users.find? (fun u => u.telegram_id == tid)

/-- `session.get(User, uid)` — lookup by primary key. -/
def findUserById (db : DB) (uid : Nat) : Option User :=
  db.users.find? (fun u => u.id == uid)

/-- `session.get(AuditRequest, rid)` — lookup by primary key. -/
def findReq (db : DB) (rid : Nat) : Option AuditRequest :=
  db.requests.find? (fun r => r.id == rid)

/-- The ORM read-modify-write `user.available_audits = v` followed by
`session.commit()`: the row with primary key `uid` gets the new value. -/
def setUserCredits (db : DB) (uid : Nat) (v : Int) : DB :=
  { db with
    users := db.users.map (fun u =>
      if u.id = uid then { u with available_audits := v } else u) }

/-- The ORM write `audit_request.status = s` followed by
`session.commit()`. -/
def setReqStatus (db : DB) (rid : Nat) (s : Status) : DB :=
  { db with
    requests := db.requests.map (fun r =>
      if r.id = rid then { r with status := s } else r) }

/-! ### Redis list primitives (`rpush` / `lpop` / `llen`) -/

/-- `redis_client.rpush(QUEUE_KEY, id)` — append on the right. -/
def rpush (q : List Nat) (x : Nat) : List Nat := q ++ [x]

/-- `redis_client.lpop(QUEUE_KEY)` — destructive pop of the oldest entry,
`none` when the list is empty. -/
def lpop : List Nat → Option Nat × List Nat
  | [] => (none, [])
  | x :: xs => (some x, xs)

/-- `redis_client.llen(QUEUE_KEY)`. -/
def llen (q : List Nat) : Nat := q.length

/-- `n` successive `lpop`s, returning the popped entries in order. -/
def lpopN : Nat → List Nat → List (Option Nat) × List Nat
  | 0, q => ([], q)
  | n + 1, q =>
    let (x, q') := lpop q
    let (xs, q'') := lpopN n q'
    (x :: xs, q'')

/-! ### Python string helpers used by the handlers

These translate the exact library calls the source makes
(`os.path.splitext`, `str.lower`, `int(...)`, `str.split(":")`,
`str.startswith`, `str.replace`).  They are written over `List Char` by
structural recursion so every concrete instance reduces in the kernel. -/

/-- Index of the last occurrence of `c`, if any. -/
def lastIdxOf : List Char → Char → Option Nat
  | [], _ => none
  | x :: xs, c =>
    match lastIdxOf xs c with
    | some i => some (i + 1)
    | none => if x = c then some 0 else none

/-- The extension component of `os.path.splitext(p)` (posix separator).
Python takes the suffix from the last dot provided that dot lies after the
last `/` and the characters between them are not all dots (leading dots of
a basename never start an extension). -/
def splitext_ext (p : String) : String :=
  let cs := p.data
  match lastIdxOf cs '.' with
  | none => ""
  | some d =>
    let fstart := match lastIdxOf cs '/' with
      | none => 0
      | some s => s + 1
    if fstart ≤ d ∧ ((cs.drop fstart).take (d - fstart)).any (fun ch => ch != '.') = true then
      String.mk (cs.drop d)
    else ""

/-- `str.lower` (ASCII case mapping; the source only compares the result
with the ASCII literal ".sol"). -/
def pyLower (s : String) : String := String.mk (s.data.map Char.toLower)

/-- The code points CPython's `int()` strips as surrounding whitespace
(enumerated from the interpreter: ASCII whitespace plus NEL, NBSP and the
Unicode space/separator characters). -/
def pyIsSpace (c : Char) : Bool :=
  [0x9, 0xA, 0xB, 0xC, 0xD, 0x20, 0x85, 0xA0, 0x1680,
   0x2000, 0x2001, 0x2002, 0x2003, 0x2004, 0x2005, 0x2006, 0x2007,
   0x2008, 0x2009, 0x200A, 0x2028, 0x2029, 0x202F, 0x205F, 0x3000].contains c.toNat

/-- The whitespace stripping `int()` performs on both ends of its
argument. -/
def pyStrip (s : String) : String :=
  String.mk (((s.data.dropWhile pyIsSpace).reverse.dropWhile pyIsSpace).reverse)

/-- Base code points of the runs of ten consecutive Unicode decimal
digits that `int()` accepts (enumerated from CPython's Unicode tables;
the mathematical alphanumeric block contributes five runs); a digit's
value is its offset within its run. -/
def pyDigitRanges : List Nat :=
  [0x30, 0x660, 0x6F0, 0x7C0, 0x966, 0x9E6, 0xA66, 0xAE6, 0xB66, 0xBE6,
   0xC66, 0xCE6, 0xD66, 0xDE6, 0xE50, 0xED0, 0xF20, 0x1040, 0x1090, 0x17E0,
   0x1810, 0x1946, 0x19D0, 0x1A80, 0x1A90, 0x1B50, 0x1BB0, 0x1C40, 0x1C50,
   0xA620, 0xA8D0, 0xA900, 0xA9D0, 0xA9F0, 0xAA50, 0xABF0, 0xFF10, 0x104A0,
   0x10D30, 0x11066, 0x110F0, 0x11136, 0x111D0, 0x112F0, 0x11450, 0x114D0,
   0x11650, 0x116C0, 0x11730, 0x118E0, 0x11950, 0x11C50, 0x11D50, 0x11DA0,
   0x16A60, 0x16AC0, 0x16B50, 0x1D7CE, 0x1D7D8, 0x1D7E2, 0x1D7EC, 0x1D7F6,
   0x1E140, 0x1E2F0, 0x1E950, 0x1FBF0]

/-- The decimal value of a character, when it is one of the Unicode
decimal digits `int()` accepts. -/
def pyDigitVal? (c : Char) : Option Nat :=
  match pyDigitRanges.find? (fun b => decide (b ≤ c.toNat) && decide (c.toNat < b + 10)) with
  | some b => some (c.toNat - b)
  | none => none

/-- Parse a nonempty digit run with PEP 515 underscore grouping —
`digit (underscore? digit)*` — accumulating the value onto `acc`; a
leading, trailing or doubled underscore, or any non-digit, fails. -/
def pyDigitsAux : List Char → Nat → Option Nat
  | [], _ => none
  | [c], acc =>
    match pyDigitVal? c with
    | none => none
    | some d => some (acc * 10 + d)
  | c :: c2 :: cs, acc =>
    match pyDigitVal? c with
    | none => none
    | some d =>
      if c2 = '_' then pyDigitsAux cs (acc * 10 + d)
      else pyDigitsAux (c2 :: cs) (acc * 10 + d)

/-- Python `int(s)` in base 10: optional surrounding whitespace, an
optional sign, then one or more Unicode decimal digits with optional
single underscores between digits; anything else raises `ValueError`,
modelled as `none`. -/
def pyInt? (s : String) : Option Int :=
  let t := (pyStrip s).data
  let signDigits : Bool × List Char :=
    match t with
    | '-' :: rest => (true, rest)
    | '+' :: rest => (false, rest)
    | _ => (false, t)
  match pyDigitsAux signDigits.2 0 with
  | some n => some (if signDigits.1 then -(n : Int) else (n : Int))
  | none => none

/-- `str.split(sep)` for a one-character separator (the source splits on
`":"`). -/
def pySplitChar (sep : Char) : List Char → List (List Char)
  | [] => [[]]
  | c :: cs =>
    let r := pySplitChar sep cs
    if c = sep then [] :: r
    else
      match r with
      | h :: t => (c :: h) :: t
      | [] => [[c]]

/-- `str.split(":")` on a string. -/
def pySplit (s : String) (sep : Char) : List String :=
  (pySplitChar sep s.data).map String.mk

/-- `str.startswith(pre)`. -/
def pyStartsWith (s pre : String) : Bool :=
  pre.data.isPrefixOf s.data

/-- `str.replace(pat, rep)` — replace every (leftmost, non-overlapping)
occurrence.  The fuel argument is bounded by the string length, which
suffices because each step consumes at least one character. -/
def pyReplaceAux (pat rep : List Char) : Nat → List Char → List Char
  | _, [] => []
  | 0, cs => cs
  | fuel + 1, c :: cs =>
    if pat.isPrefixOf (c :: cs) then
      rep ++ pyReplaceAux pat rep fuel (List.drop (pat.length - 1) cs)
    else
      c :: pyReplaceAux pat rep fuel cs

/-- `str.replace(pat, rep)` (for nonempty `pat`; the source replaces
".html" by ".pdf"). -/
def pyReplace (s pat rep : String) : String :=
  if pat.data = [] then s
  else String.mk (pyReplaceAux pat.data rep.data s.data.length s.data)

/-! ### Command handlers -/

/-- `get_or_create_user(session, message)`: look the user up by
`telegram_id`; create the row (with `available_audits=0`) on first
contact. -/
def get_or_create_user (db : DB) (info : UserInfo) : DB × User :=
  match findUserByTid db info.telegram_id with
  | some u => (db, u)
  | none =>
    let u : User :=
      { id := db.nextUserId
        telegram_id := info.telegram_id
        first_name := info.first_name
        last_name := info.last_name
        username := info.username
        available_audits := 0 }
    ({ db with users := db.users ++ [u], nextUserId := db.nextUserId + 1 }, u)

/-- Replies of `cmd_free`. -/
inductive FreeReply where
  | granted
  | alreadyReceived
deriving DecidableEq, Repr

/-- `/free`: grant 2 audits when the balance is exactly 0, otherwise
refuse.  The ORM `user.available_audits += 2` is the read-modify-write
`setUserCredits`. -/
def cmd_free (db : DB) (info : UserInfo) : DB × FreeReply :=
  let p := get_or_create_user db info
  let db1 := p.1
  let user := p.2
  if user.available_audits = 0 then
    (setUserCredits db1 user.id (user.available_audits + 2), .granted)
  else (db1, .alreadyReceived)

/-- Replies of `cmd_buy`. -/
inductive BuyReply where
  | askQuantity
  | invalidQuantity
  | paymentKeyboard (q : Int)
deriving DecidableEq, Repr

/-- `/buy {n}`: parse the argument with `int(...)`, reject empty,
non-numeric or non-positive input, otherwise reply with the payment
keyboard (callback data `check_payment:{n}`).  Never touches the store. -/
def cmd_buy (db : DB) (args : String) : DB × BuyReply :=
  if args = "" then (db, .askQuantity)
  else
    match pyInt? args with
    | none => (db, .invalidQuantity)
    | some quantity =>
      if quantity ≤ 0 then (db, .invalidQuantity)
      else (db, .paymentKeyboard quantity)

/-- Replies of `callback_check_payment`. -/
inductive CallbackReply where
  | invalidData
  | userNotFound
  | confirmed (q newBalance : Int)
  | notHandled
deriving DecidableEq, Repr

/-- The `check_payment:` callback: split the payload on `":"`, parse the
quantity with `int(...)` (malformed data answers an error), look the user
up and apply `user.available_audits += quantity` — the handler performs no
positivity check of its own. -/
def callback_check_payment (db : DB) (tid : Nat) (data : String) : DB × CallbackReply :=
  if pyStartsWith data "check_payment:" = false then (db, .notHandled)
  else
    match pySplit data ':' with
    | [_, quantity_str] =>
      match pyInt? quantity_str with
      | none => (db, .invalidData)
      | some quantity =>
        match findUserByTid db tid with
        | none => (db, .userNotFound)
        | some user =>
          (setUserCredits db user.id (user.available_audits + quantity),
           .confirmed quantity (user.available_audits + quantity))
    | _ => (db, .invalidData)

/-- Replies of `cmd_audit`. -/
inductive AuditReply where
  | invalidExtension
  | noCredits
  | queuedAt (pos : Nat)
deriving DecidableEq, Repr

/-- Observable persistence events of a submission, in program order:
the single `session.commit()` that persists the debit together with the
new request row, then the `rpush` of the request id. -/
inductive SubmitEv where
  | dbCommit (rid : Nat)
  | redisPush (rid : Nat)
deriving DecidableEq, Repr

/-- `/audit` with an attached document (`cmd_audit`): reject unless the
lower-cased `os.path.splitext` extension is ".sol" (before opening any
session); create the user lazily; reject when `available_audits <= 0`;
otherwise debit one credit, add the `AuditRequest` row (status `queued`),
commit both in one transaction, then `rpush` the id and report the
current `llen` as the queue position.  `unique_id` stands for the
`uuid.uuid4().hex` value drawn during the call. -/
def cmd_audit (st : St) (info : UserInfo) (file_name : String) (unique_id : String) :
    St × AuditReply × List SubmitEv :=
  let file_extension := pyLower (splitext_ext file_name)
  if file_extension ≠ ".sol" then (st, .invalidExtension, [])
  else
    let p := get_or_create_user st.db info
    let db1 := p.1
    let user := p.2
    if user.available_audits ≤ 0 then ({ st with db := db1 }, .noCredits, [])
    else
      let db2 := setUserCredits db1 user.id (user.available_audits - 1)
      let file_path := "uploads/" ++ unique_id ++ ".sol"
      let report_html_path := "reports/" ++ unique_id ++ "_report.html"
      let rid := db2.nextReqId
      let req : AuditRequest :=
        { id := rid
          user_id := user.id
          file_name := file_name
          file_path := file_path
          report_path := report_html_path
          status := .queued }
      let db3 := { db2 with requests := db2.requests ++ [req], nextReqId := rid + 1 }
      let q' := rpush st.queue rid
      ({ db := db3, queue := q' }, .queuedAt (llen q'), [.dbCommit rid, .redisPush rid])

/-! ### The worker loop (`process_audit_queue`)

One iteration of the `while True` body.  External calls that can raise
are driven by boolean flags of an `Env`; everything the iteration does to
the outside world is recorded in an effect trace.  An exception that
escapes `process_audit_queue` (crashing the worker task) is reported as
`some WorkerCrash`; errors caught by a `try/except` of the source are
not. -/

/-- What kind of Telegram text message is sent. -/
inductive MsgKind where
  | beginAudit
  | success
  | failure
deriving DecidableEq, Repr

/-- Externally visible actions of one worker iteration, in program
order.  `fetchSource` is the `bot.get_file`/`bot.download_file` pair,
`writeFile` the write of the downloaded bytes, `writeReport` the write of
the generated HTML body, `writePdf` the WeasyPrint rendering. -/
inductive Eff where
  | sendMessage (tid : Nat) (k : MsgKind)
  | fetchSource (path : String)
  | writeFile (path : String)
  | writeReport (path : String) (content : String)
  | writePdf (path : String)
  | sendDocument (tid : Nat) (path : String)
  | removeFile (path : String)
  | commitStatus (rid : Nat) (s : Status)
deriving DecidableEq, Repr

/-- An exception escaping `process_audit_queue`. -/
inductive WorkerCrash where
  | userAttrError
  | failureNotifyError
deriving DecidableEq, Repr

/-- Success/failure of each fallible external call of one iteration,
plus `today`, the `datetime.now(timezone.utc).strftime("%d.%m.%Y")`
value at report-generation time. -/
structure Env where
  today : String
  notifyBegin : Bool
  fetchFile : Bool
  writeReport : Bool
  pdfRender : Bool
  sendDocument : Bool
  cleanup : Bool
  notifySuccess : Bool
  notifyFail : Bool
deriving Repr

/-! ### The report generator (`generate_html_report`)

The source builds the body with an f-string interpolating two values:
`datetime.now(timezone.utc).strftime('%d.%m.%Y')` — the current date at
invocation time — and `file_name`.  The embedding therefore takes the
formatted date as the explicit argument `today`; everything else is the
fixed template, reproduced verbatim (literal braces of the CSS written as
escapes). -/

/-- Template text before the interpolated date. -/
def reportPart1 : String := "
    <!DOCTYPE html>
    <html lang=\"ru\">
    <head>
        <meta charset=\"UTF-8\">
        <title>Отчет по аудиту смарт-контракта</title>
        <style>
            body \x7b font-family: Arial, sans-serif; margin: 20px; \x7d
            h1, h2, h3 \x7b color: #2E86C1; \x7d
            .page \x7b page-break-after: always; \x7d
            .title-page \x7b text-align: center; margin-top: 100px; \x7d
            .content \x7b margin-top: 50px; \x7d
            .section \x7b margin-bottom: 40px; \x7d
            ul \x7b list-style-type: disc; margin-left: 20px; \x7d
        </style>
    </head>
    <body>
        <!-- Титульный лист -->
        <div class=\"page title-page\">
            <h1>Отчет по аудиту смарт-контракта</h1>
            <p>Дата: "

/-- Template text between the interpolated date and the interpolated file
name. -/
def reportPart2 : String := "</p>
            <p>Контракт: "

/-- Template text after the interpolated file name. -/
def reportPart3 : String := "</p>
        </div>

        <!-- О команде -->
        <div class=\"page content\">
            <h2>О нашей команде</h2>
            <p>Мы — команда опытных аудиторов, специализирующихся на проверке смарт-контрактов на Solidity. 🛡️</p>
            <p>Наша миссия — обеспечить безопасность и надежность ваших блокчейн-проектов. 🚀</p>
            <p>Мы используем современные инструменты и методологии для проведения тщательного анализа кода, выявления уязвимостей и предоставления рекомендаций по улучшению. 🧰</p>
        </div>

        <!-- Цели и задачи аудита -->
        <div class=\"page content\">
            <h2>Цели и задачи аудита</h2>
            <p>Основные цели аудита смарт-контракта:</p>
            <ul>
                <li>Идентификация потенциальных уязвимостей и ошибок в коде. 🔍</li>
                <li>Оценка безопасности логики контракта. 🛡️</li>
                <li>Предоставление рекомендаций по улучшению и оптимизации кода. 📝</li>
                <li>Обеспечение соответствия контракта лучшим практикам разработки. 📈</li>
            </ul>
        </div>

        <!-- Поиск уязвимостей и рекомендации -->
        <div class=\"page content\">
            <h2>Поиск уязвимостей и рекомендации</h2>
            <p>В ходе аудита были проведены следующие проверки:</p>
            <ul>
                <li>Анализ кода на наличие стандартных уязвимостей, таких как reentrancy, integer overflow/underflow, неправильное управление доступом и другие. ⚠️</li>
                <li>Оценка логики смарт-контракта для выявления потенциальных ошибок и недочетов в бизнес-логике. 🧠</li>
                <li>Проверка на соответствие лучшим практикам разработки, включая использование проверенных библиотек и шаблонов проектирования. 📚</li>
                <li>Тестирование функциональности контракта с использованием автоматизированных инструментов и ручных проверок. 🛠️</li>
            </ul>
            <p>Рекомендации:</p>
            <ul>
                <li>Использовать последние версии Solidity для повышения безопасности и производительности. 📦</li>
                <li>Добавить дополнительные проверки ввода данных для предотвращения некорректных операций. ✅</li>
                <li>Рассмотреть возможность проведения регулярных аудитов и тестирования после внесения изменений в код. 🔄</li>
                <li>Внедрить системы мониторинга и оповещений для своевременного обнаружения аномалий и потенциальных атак. 📊</li>
            </ul>
        </div>

        <!-- Тестирование и верификация -->
        <div class=\"page content\">
            <h2>Тестирование и верификация</h2>
            <p>Мы провели обширное тестирование смарт-контракта, включая:</p>
            <ul>
                <li>Юнит-тестирование всех функций контракта с использованием фреймворков для тестирования Solidity. 🧪</li>
                <li>Интеграционное тестирование для проверки взаимодействия контракта с другими смарт-контрактами и системами. 🔗</li>
                <li>Формальная верификация для доказательства корректности выполнения ключевых функций контракта. 📜</li>
                <li>Стресс-тестирование для оценки производительности и устойчивости контракта под высокой нагрузкой. 🚀</li>
            </ul>
        </div>

        <!-- Безопасность и соответствие стандартам -->
        <div class=\"page content\">
            <h2>Безопасность и соответствие стандартам</h2>
            <p>Наш аудит включает проверку соответствия контракта следующим стандартам и рекомендациям:</p>
            <ul>
                <li>ERC-20 и ERC-721 стандарты для токенов, обеспечивающие совместимость и безопасность. 🪙</li>
                <li>Использование OpenZeppelin библиотек для повышения надежности и безопасности кода. 🛡️</li>
                <li>Следование рекомендациям по безопасности от Ethereum и других блокчейн-сообществ. 📖</li>
            </ul>
        </div>

        <!-- Заключение -->
        <div class=\"page content\">
            <h2>Заключение</h2>
            <p>Ваш смарт-контракт прошел тщательную проверку и не содержит критических уязвимостей. 🎉</p>
            <p>Однако, для повышения общей безопасности и эффективности вашего проекта, мы рекомендуем следовать нашим рекомендациям. 🛠️</p>
            <p>Мы готовы предоставить дополнительную поддержку и ответить на любые вопросы, связанные с вашим смарт-контрактом. 🤝</p>
            <p>Спасибо за использование нашего сервиса! 😊</p>
        </div>
    </body>
    </html>
    "

/-- `generate_html_report(file_name)`: the fixed template with the
current date (`today`) and the file name interpolated. -/
def generate_html_report (file_name : String) (today : String) : String :=
  reportPart1 ++ (today ++ (reportPart2 ++ (file_name ++ reportPart3)))

/-- The body of the worker's `try:` block (steps 4-12: begin
notification, source fetch, report generation/write, PDF rendering with
its inner fallback `except`, document delivery, the `completed` commit,
best-effort cleanup with its inner `except`, success notification).
Returns the database as left behind, the effects emitted, and whether an
exception reached the outer `except` handler. -/
def tryBlock (env : Env) (db : DB) (req : AuditRequest) (tid : Nat) :
    DB × List Eff × Bool :=
  if env.notifyBegin = false then (db, [], true)
  else
    let e1 := [Eff.sendMessage tid .beginAudit]
    if env.fetchFile = false then (db, e1, true)
    else
      let e2 := e1 ++ [Eff.fetchSource req.file_path, Eff.writeFile req.file_path]
      let html_content := generate_html_report req.file_name env.today
      if env.writeReport = false then (db, e2, true)
      else
        let e3 := e2 ++ [Eff.writeReport req.report_path html_content]
        let pdfPath := pyReplace req.report_path ".html" ".pdf"
        let fin :=
          if env.pdfRender then (pdfPath, e3 ++ [Eff.writePdf pdfPath])
          else (req.report_path, e3)
        let report_final_path := fin.1
        let e4 := fin.2
        if env.sendDocument = false then (db, e4, true)
        else
          let e5 := e4 ++ [Eff.sendDocument tid report_final_path]
          let db1 := setReqStatus db req.id .completed
          let e6 := e5 ++ [Eff.commitStatus req.id .completed]
          let e7 :=
            if env.cleanup then
              e6 ++ [Eff.removeFile req.file_path, Eff.removeFile req.report_path,
                     Eff.removeFile report_final_path]
            else e6
          if env.notifySuccess = false then (db1, e7, true)
          else (db1, e7 ++ [Eff.sendMessage tid .success], false)

/-- The body of one `while True` iteration after a successful `lpop`
returned `rid`: the dequeue guard (missing row or status not `queued`
means a silent no-op), the `processing` commit, the `try` block, and the
outer `except` handler (log, commit `failed`, send the failure
notification — the latter outside any further `try`, so its own failure
escapes, as does the `AttributeError` when the user row is missing). -/
def processPoppedId (env : Env) (db : DB) (rid : Nat) :
    DB × List Eff × Option WorkerCrash :=
  match findReq db rid with
  | none => (db, [], none)
  | some audit_request =>
    if audit_request.status ≠ Status.queued then (db, [], none)
    else
      let db1 := setReqStatus db rid .processing
      let e0 := [Eff.commitStatus rid .processing]
      match findUserById db1 audit_request.user_id with
      | none =>
        let db2 := setReqStatus db1 rid .failed
        (db2, e0 ++ [Eff.commitStatus rid .failed], some .userAttrError)
      | some user =>
        let t := tryBlock env db1 audit_request user.telegram_id
        let db2 := t.1
        let effs := t.2.1
        let raised := t.2.2
        if raised then
          let db3 := setReqStatus db2 rid .failed
          let e := e0 ++ effs ++ [Eff.commitStatus rid .failed]
          if env.notifyFail then
            (db3, e ++ [Eff.sendMessage user.telegram_id .failure], none)
          else (db3, e, some .failureNotifyError)
        else (db2, e0 ++ effs, none)

/-- One full iteration of `process_audit_queue`: `lpop`, then either the
idle `asyncio.sleep(5)` (no state change) or the per-entry body. -/
def process_audit_queue_step (env : Env) (st : St) :
    St × List Eff × Option WorkerCrash :=
  let p := lpop st.queue
  match p.1 with
  | none => (st, [], none)
  | some rid =>
    let r := processPoppedId env st.db rid
    ({ db := r.1, queue := p.2 }, r.2.1, r.2.2)

/-- The statuses committed to the store by a trace, in order. -/
def statusTrace (effs : List Eff) : List Status :=
  effs.filterMap (fun e =>
    match e with
    | .commitStatus _ s => some s
    | _ => none)

/-- The transition relation asserted by the specification: strictly
forward, `failed` reachable only from `processing`. -/
def claimStep : Status → Status → Bool
  | .queued, .processing => true
  | .processing, .completed => true
  | .processing, .failed => true
  | _, _ => false

/-- The transition relation the code actually obeys: the spec's forward
relation plus `completed → failed` (the success notification failing
after the `completed` commit). -/
def relaxedStep (a b : Status) : Bool :=
  claimStep a b || (a == .completed && b == .failed)

/-- All consecutive pairs of the list satisfy `f`. -/
def chainB (f : Status → Status → Bool) : List Status → Bool
  | [] => true
  | [_] => true
  | a :: b :: rest => f a b && chainB f (b :: rest)

/-- The request's status before a worker pass followed by every status
the pass commits. -/
def statusPath (env : Env) (db : DB) (rid : Nat) : List Status :=
  (match findReq db rid with
   | some r => [r.status]
   | none => []) ++ statusTrace (processPoppedId env db rid).2.1

/-! ### Operations of the whole system, for state-invariant claims -/

/-- One externally triggered operation: a `/free` grant, a `/buy`
command, a payment-confirmation callback, an `/audit` submission, or one
worker iteration. -/
inductive Op where
  | free (info : UserInfo)
  | buy (info : UserInfo) (args : String)
  | checkPayment (tid : Nat) (data : String)
  | audit (info : UserInfo) (file_name : String) (unique_id : String)
  | worker (env : Env)

/-- State transition of one operation. -/
def step (st : St) : Op → St
  | .free info => { st with db := (cmd_free st.db info).1 }
  | .buy _ args => { st with db := (cmd_buy st.db args).1 }
  | .checkPayment tid data => { st with db := (callback_check_payment st.db tid data).1 }
  | .audit info fn uid => (cmd_audit st info fn uid).1
  | .worker env => (process_audit_queue_step env st).1

/-- The quantity a `check_payment:` callback payload carries, when its
shape lets the handler reach the crediting branch. -/
def parsedCallbackQuantity (data : String) : Option Int :=
  match pySplit data ':' with
  | [_, qs] => pyInt? qs
  | _ => none

/-- Guard under which an operation cannot push a balance below zero: its
payment-confirmation quantity, if any, is nonnegative. -/
def nonnegOp : Op → Prop
  | .checkPayment _ data => ∀ q, parsedCallbackQuantity data = some q → 0 ≤ q
  | _ => True

/-- Every user balance is nonnegative. -/
def creditsNonneg (st : St) : Prop :=
  ∀ u ∈ st.db.users, 0 ≤ u.available_audits

/-- Every id in the queue refers to a persisted request row. -/
def queueBacked (st : St) : Prop :=
  ∀ id ∈ st.queue, (findReq st.db id).isSome = true

/-! ### Concrete sample states used to instantiate the results -/

/-- A user as created lazily on first contact: zero credits. -/
def sampleUserZero : User :=
  { id := 1, telegram_id := 7, first_name := none, last_name := none,
    username := none, available_audits := 0 }

/-- A store holding only that zero-credit user. -/
def sampleDbZero : DB :=
  { users := [sampleUserZero], requests := [], nextUserId := 2, nextReqId := 1 }

/-- The same user after topping up to five credits. -/
def sampleUser : User := { sampleUserZero with available_audits := 5 }

/-- A queued audit request of that user. -/
def sampleReq : AuditRequest :=
  { id := 1, user_id := 1, file_name := "contract.sol",
    file_path := "uploads/aa.sol", report_path := "reports/aa_report.html",
    status := .queued }

/-- A store with the user and their queued request. -/
def sampleDb : DB :=
  { users := [sampleUser], requests := [sampleReq], nextUserId := 2, nextReqId := 2 }

/-- The same store with the request already completed. -/
def sampleDbCompleted : DB :=
  { sampleDb with requests := [{ sampleReq with status := .completed }] }

/-- An environment in which every external call succeeds (the PDF
renderer failing exercises only the inner fallback, so it is left off). -/
def envAllOk : Env :=
  { today := "01.01.2024", notifyBegin := true, fetchFile := true,
    writeReport := true, pdfRender := false, sendDocument := true,
    cleanup := true, notifySuccess := true, notifyFail := true }

/-- Everything succeeds except the final success notification. -/
def envSuccessNotifyFails : Env := { envAllOk with notifySuccess := false }

/-- The begin notification fails and the failure notification succeeds. -/
def envBeginNotifyFails : Env := { envAllOk with notifyBegin := false }

/-- Both the begin notification and the failure notification fail (the
user blocked the bot, say). -/
def envBothNotifyFail : Env := { envAllOk with notifyBegin := false, notifyFail := false }

/-- The `message.from_user` data of the sample user. -/
def sampleInfo : UserInfo :=
  { telegram_id := 7, first_name := none, last_name := none, username := none }

/-- A short operation sequence exercising every kind of operation (the
purchase-confirmation payload carries the positive quantity 2). -/
def sampleOps : List Op :=
  [Op.free sampleInfo, Op.buy sampleInfo "5",
   Op.checkPayment 7 "check_payment:2",
   Op.audit sampleInfo "contract.sol" "aa", Op.worker envAllOk]

/-! ### Helper lemmas about the store primitives -/

theorem users_setReqStatus (db : DB) (rid : Nat) (s : Status) :
    (setReqStatus db rid s).users = db.users := rfl

theorem requests_setUserCredits (db : DB) (uid : Nat) (v : Int) :
    (setUserCredits db uid v).requests = db.requests := rfl

theorem findUserById_setReqStatus (db : DB) (rid : Nat) (s : Status) (uid : Nat) :
    findUserById (setReqStatus db rid s) uid = findUserById db uid := rfl

theorem findReq_setReqStatus (db : DB) (rid : Nat) (s : Status) (x : Nat) :
    findReq (setReqStatus db rid s) x =
      (findReq db x).map (fun r => if r.id = rid then { r with status := s } else r) := by
  unfold findReq setReqStatus
  rw [List.find?_map]
  have hp : ((fun r => r.id == x) ∘ fun r =>
      if r.id = rid then { r with status := s } else r) =
      (fun r : AuditRequest => r.id == x) := by
    funext r
    by_cases h : r.id = rid <;> simp [h]
  rw [hp]

theorem findReq_setReqStatus_isSome (db : DB) (rid : Nat) (s : Status) (x : Nat) :
    (findReq (setReqStatus db rid s) x).isSome = (findReq db x).isSome := by
  rw [findReq_setReqStatus]
  cases findReq db x <;> rfl

theorem id_of_findReq (db : DB) (rid : Nat) (r : AuditRequest)
    (h : findReq db rid = some r) : r.id = rid := by
  have := List.find?_some h
  exact eq_of_beq this

theorem findReq_setReqStatus_self (db : DB) (rid : Nat) (s : Status) (r : AuditRequest)
    (h : findReq db rid = some r) :
    findReq (setReqStatus db rid s) rid = some { r with status := s } := by
  rw [findReq_setReqStatus, h]
  simp [id_of_findReq db rid r h]

theorem findUserByTid_setUserCredits (db : DB) (uid : Nat) (v : Int) (tid : Nat) :
    findUserByTid (setUserCredits db uid v) tid =
      (findUserByTid db tid).map
        (fun u => if u.id = uid then { u with available_audits := v } else u) := by
  unfold findUserByTid setUserCredits
  rw [List.find?_map]
  have hp : ((fun u => u.telegram_id == tid) ∘ fun u =>
      if u.id = uid then { u with available_audits := v } else u) =
      (fun u : User => u.telegram_id == tid) := by
    funext u
    by_cases h : u.id = uid <;> simp [h]
  rw [hp]

theorem get_or_create_found (db : DB) (info : UserInfo) (u : User)
    (h : findUserByTid db info.telegram_id = some u) :
    get_or_create_user db info = (db, u) := by
  unfold get_or_create_user
  rw [h]

theorem get_or_create_requests (db : DB) (info : UserInfo) :
    (get_or_create_user db info).1.requests = db.requests := by
  unfold get_or_create_user
  cases findUserByTid db info.telegram_id <;> rfl

theorem get_or_create_users_cases (db : DB) (info : UserInfo) :
    ((get_or_create_user db info).1 = db ∧ (get_or_create_user db info).2 ∈ db.users) ∨
    ((get_or_create_user db info).1.users = db.users ++ [(get_or_create_user db info).2] ∧
     (get_or_create_user db info).2.available_audits = 0) := by
  unfold get_or_create_user
  cases h : findUserByTid db info.telegram_id with
  | some u => exact Or.inl ⟨rfl, List.mem_of_find?_eq_some h⟩
  | none => exact Or.inr ⟨rfl, rfl⟩

theorem setUserCredits_nonneg (db : DB) (uid : Nat) (v : Int)
    (h : ∀ u ∈ db.users, 0 ≤ u.available_audits) (hv : 0 ≤ v) :
    ∀ u ∈ (setUserCredits db uid v).users, 0 ≤ u.available_audits := by
  intro u hu
  simp only [setUserCredits, List.mem_map] at hu
  obtain ⟨w, hw, rfl⟩ := hu
  by_cases hid : w.id = uid
  · simpa [hid] using hv
  · simpa [hid] using h w hw

/-! ### Structural lemmas about one worker iteration -/

theorem tryBlock_spec (env : Env) (db : DB) (req : AuditRequest) (tid : Nat) :
    ((tryBlock env db req tid).2.2 = true ∧
      (((tryBlock env db req tid).1 = db ∧
        statusTrace (tryBlock env db req tid).2.1 = []) ∨
       ((tryBlock env db req tid).1 = setReqStatus db req.id Status.completed ∧
        statusTrace (tryBlock env db req tid).2.1 = [Status.completed]))) ∨
    ((tryBlock env db req tid).2.2 = false ∧
     (tryBlock env db req tid).1 = setReqStatus db req.id Status.completed ∧
     statusTrace (tryBlock env db req tid).2.1 = [Status.completed]) := by
  obtain ⟨td, nb, ff, wr, pr, sd, cl, ns, nf⟩ := env
  cases nb <;> cases ff <;> cases wr <;> cases pr <;> cases sd <;> cases cl <;> cases ns <;>
    simp [tryBlock, statusTrace, List.filterMap_append]

theorem tryBlock_users (env : Env) (db : DB) (req : AuditRequest) (tid : Nat) :
    (tryBlock env db req tid).1.users = db.users := by
  rcases tryBlock_spec env db req tid with ⟨_, ⟨h, _⟩ | ⟨h, _⟩⟩ | ⟨_, h, _⟩ <;> rw [h] <;> rfl

theorem tryBlock_findReq_isSome (env : Env) (db : DB) (req : AuditRequest) (tid x : Nat) :
    (findReq (tryBlock env db req tid).1 x).isSome = (findReq db x).isSome := by
  rcases tryBlock_spec env db req tid with ⟨_, ⟨h, _⟩ | ⟨h, _⟩⟩ | ⟨_, h, _⟩ <;> rw [h] <;>
    first
      | rfl
      | exact findReq_setReqStatus_isSome db req.id Status.completed x

theorem processPoppedId_noop (env : Env) (db : DB) (rid : Nat)
    (h : findReq db rid = none ∨ ∃ r, findReq db rid = some r ∧ r.status ≠ Status.queued) :
    processPoppedId env db rid = (db, [], none) := by
  unfold processPoppedId
  rcases h with h | ⟨r, hr, hs⟩
  · rw [h]
  · rw [hr]
    simp [hs]

theorem processPoppedId_queued_cases (env : Env) (db : DB) (rid : Nat) (r : AuditRequest)
    (hr : findReq db rid = some r) (hq : r.status = Status.queued) :
    (findUserById db r.user_id = none ∧
      processPoppedId env db rid =
        (setReqStatus (setReqStatus db rid Status.processing) rid Status.failed,
         [Eff.commitStatus rid Status.processing] ++ [Eff.commitStatus rid Status.failed],
         some WorkerCrash.userAttrError)) ∨
    (∃ u, findUserById db r.user_id = some u ∧
      (((tryBlock env (setReqStatus db rid Status.processing) r u.telegram_id).2.2 = true ∧
        env.notifyFail = true ∧
        processPoppedId env db rid =
          (setReqStatus (tryBlock env (setReqStatus db rid Status.processing) r u.telegram_id).1
             rid Status.failed,
           ([Eff.commitStatus rid Status.processing] ++
              (tryBlock env (setReqStatus db rid Status.processing) r u.telegram_id).2.1 ++
                [Eff.commitStatus rid Status.failed]) ++
             [Eff.sendMessage u.telegram_id MsgKind.failure],
           none)) ∨
       ((tryBlock env (setReqStatus db rid Status.processing) r u.telegram_id).2.2 = true ∧
        env.notifyFail = false ∧
        processPoppedId env db rid =
          (setReqStatus (tryBlock env (setReqStatus db rid Status.processing) r u.telegram_id).1
             rid Status.failed,
           [Eff.commitStatus rid Status.processing] ++
             (tryBlock env (setReqStatus db rid Status.processing) r u.telegram_id).2.1 ++
               [Eff.commitStatus rid Status.failed],
           some WorkerCrash.failureNotifyError)) ∨
       ((tryBlock env (setReqStatus db rid Status.processing) r u.telegram_id).2.2 = false ∧
        processPoppedId env db rid =
          ((tryBlock env (setReqStatus db rid Status.processing) r u.telegram_id).1,
           [Eff.commitStatus rid Status.processing] ++
             (tryBlock env (setReqStatus db rid Status.processing) r u.telegram_id).2.1,
           none)))) := by
  have hred : processPoppedId env db rid =
      (match findUserById (setReqStatus db rid Status.processing) r.user_id with
       | none =>
         (setReqStatus (setReqStatus db rid Status.processing) rid Status.failed,
          [Eff.commitStatus rid Status.processing] ++ [Eff.commitStatus rid Status.failed],
          some WorkerCrash.userAttrError)
       | some user =>
         let t := tryBlock env (setReqStatus db rid Status.processing) r user.telegram_id
         if t.2.2 then
           if env.notifyFail then
             (setReqStatus t.1 rid Status.failed,
              ([Eff.commitStatus rid Status.processing] ++ t.2.1 ++
                [Eff.commitStatus rid Status.failed]) ++
                [Eff.sendMessage user.telegram_id MsgKind.failure],
              none)
           else
             (setReqStatus t.1 rid Status.failed,
              [Eff.commitStatus rid Status.processing] ++ t.2.1 ++
                [Eff.commitStatus rid Status.failed],
              some WorkerCrash.failureNotifyError)
         else (t.1, [Eff.commitStatus rid Status.processing] ++ t.2.1, none)) := by
    unfold processPoppedId
    simp only [hr]
    rw [if_neg (by simp [hq])]
  rw [hred]
  cases hu : findUserById (setReqStatus db rid Status.processing) r.user_id with
  | none =>
    left
    exact ⟨hu, rfl⟩
  | some u =>
    right
    refine ⟨u, hu, ?_⟩
    cases hb : (tryBlock env (setReqStatus db rid Status.processing) r u.telegram_id).2.2 with
    | true =>
      cases hnf : env.notifyFail with
      | true => exact Or.inl ⟨rfl, rfl, by simp [hb, hnf]⟩
      | false => exact Or.inr (Or.inl ⟨rfl, rfl, by simp [hb, hnf]⟩)
    | false => exact Or.inr (Or.inr ⟨rfl, by simp [hb]⟩)

theorem processPoppedId_users (env : Env) (db : DB) (rid : Nat) :
    (processPoppedId env db rid).1.users = db.users := by
  cases hr : findReq db rid with
  | none => rw [processPoppedId_noop env db rid (Or.inl hr)]
  | some r =>
    by_cases hq : r.status = Status.queued
    · rcases processPoppedId_queued_cases env db rid r hr hq with
        ⟨_, h⟩ | ⟨u, _, ⟨_, _, h⟩ | ⟨_, _, h⟩ | ⟨_, h⟩⟩ <;> rw [h] <;>
        simp [users_setReqStatus, tryBlock_users]
    · rw [processPoppedId_noop env db rid (Or.inr ⟨r, hr, hq⟩)]

theorem processPoppedId_findReq_isSome (env : Env) (db : DB) (rid x : Nat) :
    (findReq (processPoppedId env db rid).1 x).isSome = (findReq db x).isSome := by
  cases hr : findReq db rid with
  | none => rw [processPoppedId_noop env db rid (Or.inl hr)]
  | some r =>
    by_cases hq : r.status = Status.queued
    · rcases processPoppedId_queued_cases env db rid r hr hq with
        ⟨_, h⟩ | ⟨u, _, ⟨_, _, h⟩ | ⟨_, _, h⟩ | ⟨_, h⟩⟩ <;> rw [h] <;>
        simp [findReq_setReqStatus_isSome, tryBlock_findReq_isSome]
    · rw [processPoppedId_noop env db rid (Or.inr ⟨r, hr, hq⟩)]

theorem processPoppedId_err_none (env : Env) (db : DB) (rid : Nat)
    (h1 : env.notifyFail = true)
    (h2 : ∀ r, findReq db rid = some r → (findUserById db r.user_id).isSome = true) :
    (processPoppedId env db rid).2.2 = none := by
  cases hr : findReq db rid with
  | none => rw [processPoppedId_noop env db rid (Or.inl hr)]
  | some r =>
    by_cases hq : r.status = Status.queued
    · rcases processPoppedId_queued_cases env db rid r hr hq with
        ⟨hu, _⟩ | ⟨u, _, ⟨_, _, h⟩ | ⟨_, hnf, _⟩ | ⟨_, h⟩⟩
      · have := h2 r hr
        rw [hu] at this
        simp at this
      · rw [h]
      · rw [h1] at hnf
        cases hnf
      · rw [h]
    · rw [processPoppedId_noop env db rid (Or.inr ⟨r, hr, hq⟩)]

theorem statusTrace_append (a b : List Eff) :
    statusTrace (a ++ b) = statusTrace a ++ statusTrace b :=
  List.filterMap_append a b _

theorem processPoppedId_trace (env : Env) (db : DB) (rid : Nat) (r : AuditRequest)
    (hr : findReq db rid = some r) (hq : r.status = Status.queued) :
    statusTrace (processPoppedId env db rid).2.1 = [Status.processing, Status.failed] ∨
    statusTrace (processPoppedId env db rid).2.1 = [Status.processing, Status.completed] ∨
    statusTrace (processPoppedId env db rid).2.1 =
      [Status.processing, Status.completed, Status.failed] := by
  rcases processPoppedId_queued_cases env db rid r hr hq with
    ⟨_, h⟩ | ⟨u, _, ⟨hb, _, h⟩ | ⟨hb, _, h⟩ | ⟨hb, h⟩⟩
  · rw [h]
    left
    rfl
  · rcases tryBlock_spec env (setReqStatus db rid Status.processing) r u.telegram_id with
      ⟨_, ⟨_, ht⟩ | ⟨_, ht⟩⟩ | ⟨hb2, _, _⟩
    · rw [h]
      left
      simp only [statusTrace_append, ht]
      rfl
    · rw [h]
      right; right
      simp only [statusTrace_append, ht]
      rfl
    · rw [hb] at hb2
      cases hb2
  · rcases tryBlock_spec env (setReqStatus db rid Status.processing) r u.telegram_id with
      ⟨_, ⟨_, ht⟩ | ⟨_, ht⟩⟩ | ⟨hb2, _, _⟩
    · rw [h]
      left
      simp only [statusTrace_append, ht]
      rfl
    · rw [h]
      right; right
      simp only [statusTrace_append, ht]
      rfl
    · rw [hb] at hb2
      cases hb2
  · rcases tryBlock_spec env (setReqStatus db rid Status.processing) r u.telegram_id with
      ⟨hb2, _⟩ | ⟨_, _, ht⟩
    · rw [hb] at hb2
      cases hb2
    · rw [h]
      right; left
      simp only [statusTrace_append, ht]
      rfl

theorem processPoppedId_final_status (env : Env) (db : DB) (rid : Nat) (r : AuditRequest)
    (hr : findReq db rid = some r) (hq : r.status = Status.queued) :
    ∃ r', findReq (processPoppedId env db rid).1 rid = some r' ∧
      (r'.status = Status.completed ∨ r'.status = Status.failed) := by
  have hp1 : findReq (setReqStatus db rid Status.processing) rid = some { r with status := Status.processing } :=
    findReq_setReqStatus_self db rid Status.processing r hr
  have hid : r.id = rid := id_of_findReq db rid r hr
  have hpf : findReq (setReqStatus (setReqStatus db rid Status.processing) rid Status.failed) rid = some { r with status := Status.failed } :=
    findReq_setReqStatus_self (setReqStatus db rid Status.processing) rid Status.failed { r with status := Status.processing } hp1
  have hpc : findReq (setReqStatus (setReqStatus db rid Status.processing) rid Status.completed) rid = some { r with status := Status.completed } :=
    findReq_setReqStatus_self (setReqStatus db rid Status.processing) rid Status.completed { r with status := Status.processing } hp1
  have hpcf : findReq (setReqStatus (setReqStatus (setReqStatus db rid Status.processing) rid Status.completed) rid Status.failed) rid = some { r with status := Status.failed } :=
    findReq_setReqStatus_self (setReqStatus (setReqStatus db rid Status.processing) rid Status.completed) rid Status.failed { r with status := Status.completed } hpc
  rcases processPoppedId_queued_cases env db rid r hr hq with
    ⟨_, h⟩ | ⟨u, _, ⟨hb, _, h⟩ | ⟨hb, _, h⟩ | ⟨hb, h⟩⟩
  · exact ⟨{ r with status := Status.failed }, by rw [h]; exact hpf, Or.inr rfl⟩
  · rcases tryBlock_spec env (setReqStatus db rid Status.processing) r u.telegram_id with
      ⟨_, ⟨ht, _⟩ | ⟨ht, _⟩⟩ | ⟨hb2, _, _⟩
    · exact ⟨{ r with status := Status.failed }, by rw [h, ht]; exact hpf, Or.inr rfl⟩
    · rw [hid] at ht
      exact ⟨{ r with status := Status.failed }, by rw [h, ht]; exact hpcf, Or.inr rfl⟩
    · rw [hb] at hb2
      cases hb2
  · rcases tryBlock_spec env (setReqStatus db rid Status.processing) r u.telegram_id with
      ⟨_, ⟨ht, _⟩ | ⟨ht, _⟩⟩ | ⟨hb2, _, _⟩
    · exact ⟨{ r with status := Status.failed }, by rw [h, ht]; exact hpf, Or.inr rfl⟩
    · rw [hid] at ht
      exact ⟨{ r with status := Status.failed }, by rw [h, ht]; exact hpcf, Or.inr rfl⟩
    · rw [hb] at hb2
      cases hb2
  · rcases tryBlock_spec env (setReqStatus db rid Status.processing) r u.telegram_id with
      ⟨hb2, _⟩ | ⟨_, ht, _⟩
    · rw [hb] at hb2
      cases hb2
    · rw [hid] at ht
      exact ⟨{ r with status := Status.completed }, by rw [h, ht]; exact hpc, Or.inl rfl⟩

theorem statusPath_relaxed (env : Env) (db : DB) (rid : Nat) :
    chainB relaxedStep (statusPath env db rid) = true := by
  unfold statusPath
  cases hr : findReq db rid with
  | none =>
    rw [processPoppedId_noop env db rid (Or.inl hr)]
    rfl
  | some r =>
    by_cases hq : r.status = Status.queued
    · rcases processPoppedId_trace env db rid r hr hq with ht | ht | ht <;>
        (show chainB relaxedStep
            ([r.status] ++ statusTrace (processPoppedId env db rid).2.1) = true
         rw [ht, hq]
         rfl)
    · rw [processPoppedId_noop env db rid (Or.inr ⟨r, hr, hq⟩)]
      rfl

theorem findReq_eq_of_requests_eq (db1 db2 : DB) (h : db1.requests = db2.requests) (x : Nat) :
    findReq db1 x = findReq db2 x := by
  unfold findReq
  rw [h]

theorem cmd_buy_fst (db : DB) (args : String) : (cmd_buy db args).1 = db := by
  unfold cmd_buy
  split
  · rfl
  · split
    · rfl
    · split <;> rfl

theorem cmd_free_requests (db : DB) (info : UserInfo) :
    (cmd_free db info).1.requests = db.requests := by
  simp only [cmd_free]
  split
  · exact get_or_create_requests db info
  · exact get_or_create_requests db info

theorem callback_check_payment_requests (db : DB) (tid : Nat) (data : String) :
    (callback_check_payment db tid data).1.requests = db.requests := by
  unfold callback_check_payment
  split
  · rfl
  · split
    · split
      · rfl
      · split
        · rfl
        · rfl
    · rfl

theorem findReq_isSome_of_requests (db' db : DB) (req : AuditRequest)
    (hreq : db'.requests = db.requests ++ [req]) (x : Nat)
    (h : (findReq db x).isSome = true ∨ req.id = x) :
    (findReq db' x).isSome = true := by
  unfold findReq at *
  rw [hreq, List.find?_append]
  rcases h with h | h
  · cases hf : db.requests.find? (fun r => r.id == x) with
    | none => rw [hf] at h; cases h
    | some a => rfl
  · cases hf : db.requests.find? (fun r => r.id == x) with
    | none => simp [List.find?, h]
    | some a => rfl

theorem process_audit_queue_step_users (env : Env) (st : St) :
    (process_audit_queue_step env st).1.db.users = st.db.users := by
  obtain ⟨db0, q0⟩ := st
  cases q0 with
  | nil => rfl
  | cons a t => exact processPoppedId_users env db0 a

theorem process_audit_queue_step_queueBacked (env : Env) (st : St) (h : queueBacked st) :
    queueBacked (process_audit_queue_step env st).1 := by
  obtain ⟨db0, q0⟩ := st
  cases q0 with
  | nil => exact h
  | cons a t =>
    intro id hid
    have hid' : id ∈ t := hid
    have hb : (findReq db0 id).isSome = true := h id (List.mem_cons_of_mem a hid')
    show (findReq (processPoppedId env db0 a).1 id).isSome = true
    rw [processPoppedId_findReq_isSome]
    exact hb

theorem get_or_create_nonneg (db : DB) (info : UserInfo)
    (h : ∀ u ∈ db.users, 0 ≤ u.available_audits) :
    ∀ u ∈ (get_or_create_user db info).1.users, 0 ≤ u.available_audits := by
  rcases get_or_create_users_cases db info with ⟨h1, _⟩ | ⟨h1, h2⟩
  · rw [h1]
    exact h
  · rw [h1]
    intro u hu
    rcases List.mem_append.mp hu with hu | hu
    · exact h u hu
    · rw [List.mem_singleton] at hu
      rw [hu]
      exact le_of_eq h2.symm

theorem cmd_free_nonneg (db : DB) (info : UserInfo)
    (h : ∀ u ∈ db.users, 0 ≤ u.available_audits) :
    ∀ u ∈ (cmd_free db info).1.users, 0 ≤ u.available_audits := by
  simp only [cmd_free]
  split
  · rename_i hz
    refine setUserCredits_nonneg _ _ _ (get_or_create_nonneg db info h) ?_
    rw [hz]
    decide
  · exact get_or_create_nonneg db info h

theorem callback_check_payment_nonneg (db : DB) (tid : Nat) (data : String)
    (hop : ∀ q, parsedCallbackQuantity data = some q → 0 ≤ q)
    (h : ∀ u ∈ db.users, 0 ≤ u.available_audits) :
    ∀ u ∈ (callback_check_payment db tid data).1.users, 0 ≤ u.available_audits := by
  unfold callback_check_payment
  split
  · exact h
  · rcases hsp : pySplit data ':' with _ | ⟨a, _ | ⟨b, _ | ⟨c, rest⟩⟩⟩ <;> simp only [hsp]
    · exact h
    · exact h
    · cases hpi : pyInt? b with
      | none => exact h
      | some q =>
        cases hfu : findUserByTid db tid with
        | none => exact h
        | some u =>
          refine setUserCredits_nonneg _ _ _ h ?_
          have hq : 0 ≤ q := by
            refine hop q ?_
            unfold parsedCallbackQuantity
            simp only [hsp]
            exact hpi
          have hu : 0 ≤ u.available_audits :=
            h u (List.mem_of_find?_eq_some hfu)
          omega
    · exact h

theorem cmd_audit_nonneg (st : St) (info : UserInfo) (fn uid : String)
    (h : ∀ u ∈ st.db.users, 0 ≤ u.available_audits) :
    ∀ u ∈ (cmd_audit st info fn uid).1.db.users, 0 ≤ u.available_audits := by
  simp only [cmd_audit]
  split
  · exact h
  · split
    · exact get_or_create_nonneg st.db info h
    · rename_i hc
      show ∀ u ∈ (setUserCredits (get_or_create_user st.db info).1
          (get_or_create_user st.db info).2.id
          ((get_or_create_user st.db info).2.available_audits - 1)).users,
        0 ≤ u.available_audits
      refine setUserCredits_nonneg _ _ _ (get_or_create_nonneg st.db info h) ?_
      omega

theorem cmd_audit_queue_requests (st : St) (info : UserInfo) (fn uid : String) :
    ((cmd_audit st info fn uid).1.queue = st.queue ∧
     (cmd_audit st info fn uid).1.db.requests = st.db.requests) ∨
    (∃ req : AuditRequest,
      (cmd_audit st info fn uid).1.queue = st.queue ++ [req.id] ∧
      (cmd_audit st info fn uid).1.db.requests = st.db.requests ++ [req]) := by
  simp only [cmd_audit]
  split
  · left
    exact ⟨rfl, rfl⟩
  · split
    · left
      exact ⟨rfl, get_or_create_requests st.db info⟩
    · right
      refine
        ⟨{ id := (get_or_create_user st.db info).1.nextReqId,
           user_id := (get_or_create_user st.db info).2.id,
           file_name := fn,
           file_path := "uploads/" ++ uid ++ ".sol",
           report_path := "reports/" ++ uid ++ "_report.html",
           status := Status.queued },
         ?_, ?_⟩
      · rfl
      · show (setUserCredits (get_or_create_user st.db info).1 _ _).requests ++ _ =
          st.db.requests ++ _
        rw [requests_setUserCredits, get_or_create_requests]
        rfl

theorem step_queueBacked (st : St) (op : Op) (h : queueBacked st) :
    queueBacked (step st op) := by
  cases op with
  | free info =>
    intro id hid
    have hb := h id hid
    show (findReq (cmd_free st.db info).1 id).isSome = true
    rw [findReq_eq_of_requests_eq _ st.db (cmd_free_requests st.db info) id]
    exact hb
  | buy info args =>
    intro id hid
    have hb := h id hid
    show (findReq (cmd_buy st.db args).1 id).isSome = true
    rw [cmd_buy_fst st.db args]
    exact hb
  | checkPayment tid data =>
    intro id hid
    have hb := h id hid
    show (findReq (callback_check_payment st.db tid data).1 id).isSome = true
    rw [findReq_eq_of_requests_eq _ st.db (callback_check_payment_requests st.db tid data) id]
    exact hb
  | audit info fn uid =>
    rcases cmd_audit_queue_requests st info fn uid with ⟨hq, hr⟩ | ⟨req, hq, hr⟩
    · intro id hid
      show (findReq (cmd_audit st info fn uid).1.db id).isSome = true
      rw [findReq_eq_of_requests_eq _ st.db hr id]
      have hid' : id ∈ st.queue := by
        have : id ∈ (cmd_audit st info fn uid).1.queue := hid
        rwa [hq] at this
      exact h id hid'
    · intro id hid
      have hid' : id ∈ st.queue ++ [req.id] := by
        have : id ∈ (cmd_audit st info fn uid).1.queue := hid
        rwa [hq] at this
      show (findReq (cmd_audit st info fn uid).1.db id).isSome = true
      refine findReq_isSome_of_requests _ st.db req hr id ?_
      rcases List.mem_append.mp hid' with hm | hm
      · exact Or.inl (h id hm)
      · rw [List.mem_singleton] at hm
        exact Or.inr hm.symm
  | worker env =>
    exact process_audit_queue_step_queueBacked env st h

theorem step_creditsNonneg (st : St) (op : Op) (hop : nonnegOp op) (h : creditsNonneg st) :
    creditsNonneg (step st op) := by
  cases op with
  | free info => exact cmd_free_nonneg st.db info h
  | buy info args =>
    intro u hu
    have hu' : u ∈ st.db.users := by
      have : u ∈ (cmd_buy st.db args).1.users := hu
      rwa [cmd_buy_fst st.db args] at this
    exact h u hu'
  | checkPayment tid data => exact callback_check_payment_nonneg st.db tid data hop h
  | audit info fn uid => exact cmd_audit_nonneg st info fn uid h
  | worker env =>
    intro u hu
    have hu' : u ∈ st.db.users := by
      have : u ∈ (process_audit_queue_step env st).1.db.users := hu
      rwa [process_audit_queue_step_users env st] at this
    exact h u hu'

/-! ### Remaining helper lemmas (report injectivity, queue arithmetic,
invariant folding) -/

theorem string_append_inj_mid (p d1 d2 t : String)
    (h : p ++ (d1 ++ t) = p ++ (d2 ++ t)) : d1 = d2 := by
  have hd : (p ++ (d1 ++ t)).data = (p ++ (d2 ++ t)).data := by rw [h]
  simp only [String.data_append] at hd
  have h1 := List.append_cancel_left hd
  have h2 := List.append_cancel_right h1
  cases d1
  cases d2
  exact congrArg String.mk (by simpa using h2)

theorem generate_html_report_date_inj (fn d1 d2 : String)
    (h : generate_html_report fn d1 = generate_html_report fn d2) : d1 = d2 :=
  string_append_inj_mid reportPart1 d1 d2 (reportPart2 ++ (fn ++ reportPart3)) h

theorem foldl_rpush (ids : List Nat) (q : List Nat) :
    ids.foldl rpush q = q ++ ids := by
  induction ids generalizing q with
  | nil => simp
  | cons a t ih => simp [rpush, ih]

theorem lpopN_all (q : List Nat) : (lpopN q.length q).1 = q.map some := by
  induction q with
  | nil => rfl
  | cons a t ih => simp [lpopN, lpop, ih]

theorem foldl_step_creditsNonneg (ops : List Op) :
    ∀ st : St, (∀ op ∈ ops, nonnegOp op) → creditsNonneg st →
      creditsNonneg (ops.foldl step st) := by
  induction ops with
  | nil =>
    intro st _ hinv
    exact hinv
  | cons op t ih =>
    intro st hops hinv
    exact ih (step st op)
      (fun o ho => hops o (List.mem_cons_of_mem op ho))
      (step_creditsNonneg st op (hops op (List.mem_cons_self op t)) hinv)

/-! ### The claims -/

/-- C1 (amended): status transitions of a worker pass follow the forward
order `queued → processing → {completed, failed}` except that
`completed → failed` additionally occurs (the success notification
failing after the `completed` commit lands the job in the outer `except`
handler); a request already in a terminal state when dequeued is never
modified. -/
theorem audit_status_transitions (env : Env) (db : DB) (rid : Nat) :
    chainB relaxedStep (statusPath env db rid) = true ∧
    (∀ r, findReq db rid = some r →
      (r.status = Status.completed ∨ r.status = Status.failed) →
      processPoppedId env db rid = (db, [], none)) := by
  refine ⟨statusPath_relaxed env db rid, ?_⟩
  intro r hr hterm
  refine processPoppedId_noop env db rid (Or.inr ⟨r, hr, ?_⟩)
  rcases hterm with h | h <;> rw [h] <;> decide

/-- C1 witness: the amended theorem applied at a store whose only request
is already `completed`. -/
theorem audit_status_transitions_witness :
    chainB relaxedStep (statusPath envAllOk sampleDbCompleted 1) = true ∧
    processPoppedId envAllOk sampleDbCompleted 1 = (sampleDbCompleted, [], none) :=
  ⟨(audit_status_transitions envAllOk sampleDbCompleted 1).1,
   (audit_status_transitions envAllOk sampleDbCompleted 1).2
     { sampleReq with status := Status.completed } (by decide) (Or.inl (by decide))⟩

/-- C1 counterexample: when every step succeeds except the final success
notification, the pass commits `processing`, then `completed`, then
`failed` — a transition out of the terminal `completed` state, and a
`failed` reached from `completed` rather than `processing`, refuting the
claimed strictly-forward relation. -/
theorem audit_status_leaves_completed_cex :
    statusTrace (processPoppedId envSuccessNotifyFails sampleDb 1).2.1 =
      [Status.processing, Status.completed, Status.failed] ∧
    chainB claimStep (statusPath envSuccessNotifyFails sampleDb 1) = false := by
  exact ⟨by decide, by decide⟩

/-- C2 (amended): errors raised inside the per-job `try` block are
contained — the pass returns normally (job marked `failed`) — provided
the failure notification itself succeeds and the job's user row exists;
the source has no handler around the failure notification (nor around the
pop/parse/commit prologue), so those failures escape `process_audit_queue`. -/
theorem worker_errors_contained (env : Env) (db : DB) (rid : Nat)
    (h1 : env.notifyFail = true)
    (h2 : ∀ r, findReq db rid = some r → (findUserById db r.user_id).isSome = true) :
    (processPoppedId env db rid).2.2 = none :=
  processPoppedId_err_none env db rid h1 h2

/-- C2 witness: a pass whose begin-notification fails but whose failure
notification succeeds ends without an escaping exception. -/
theorem worker_errors_contained_witness :
    (processPoppedId envBeginNotifyFails sampleDb 1).2.2 = none := by
  refine worker_errors_contained envBeginNotifyFails sampleDb 1 rfl ?_
  intro r hr
  have hr' : some sampleReq = some r := hr
  cases hr'
  rfl

/-- C2 counterexample: if the begin notification fails and the failure
notification also fails (e.g. the user blocked the bot), the exception
raised while sending the failure notification escapes
`process_audit_queue`, refuting the claim that no processing-step error
propagates out. -/
theorem worker_crash_on_failure_notification_cex :
    (processPoppedId envBothNotifyFail sampleDb 1).2.2 =
      some WorkerCrash.failureNotifyError := by
  decide

/-- C3 (amended): the processing-has-begun notification is NOT
best-effort: it is the first statement inside the per-job `try`, so its
failure sends the job to the `except` handler — the job is aborted with
status `failed` (no fetch, no report, no completion), and the failure
notification is sent. -/
theorem begin_notification_failure_aborts_job (env : Env) (db : DB) (rid : Nat)
    (r : AuditRequest) (u : User)
    (hr : findReq db rid = some r) (hq : r.status = Status.queued)
    (hu : findUserById db r.user_id = some u)
    (hb : env.notifyBegin = false) (hf : env.notifyFail = true) :
    processPoppedId env db rid =
      (setReqStatus (setReqStatus db rid Status.processing) rid Status.failed,
       [Eff.commitStatus rid Status.processing, Eff.commitStatus rid Status.failed,
        Eff.sendMessage u.telegram_id MsgKind.failure],
       none) := by
  rcases processPoppedId_queued_cases env db rid r hr hq with
    ⟨hun, _⟩ | ⟨u', hu', hcase⟩
  · rw [hu] at hun
    cases hun
  · rw [hu] at hu'
    injection hu' with hue
    subst hue
    have htb : tryBlock env (setReqStatus db rid Status.processing) r u.telegram_id =
        (setReqStatus db rid Status.processing, [], true) := by
      unfold tryBlock
      rw [hb]
      rfl
    rcases hcase with ⟨hb', hnf', h⟩ | ⟨hb', hnf', h⟩ | ⟨hb', h⟩
    · rw [htb] at h
      rw [h]
      rfl
    · rw [hf] at hnf'
      cases hnf'
    · rw [htb] at hb'
      cases hb'

/-- C3 witness: the amended theorem at the sample store. -/
theorem begin_notification_failure_aborts_job_witness :
    processPoppedId envBeginNotifyFails sampleDb 1 =
      (setReqStatus (setReqStatus sampleDb 1 Status.processing) 1 Status.failed,
       [Eff.commitStatus 1 Status.processing, Eff.commitStatus 1 Status.failed,
        Eff.sendMessage 7 MsgKind.failure],
       none) :=
  begin_notification_failure_aborts_job envBeginNotifyFails sampleDb 1 sampleReq
    sampleUser rfl rfl rfl rfl rfl

/-- C3 counterexample: with only the begin notification failing, the job
ends `failed`, not `completed` — refuting the claim that it still
proceeds to a completed outcome. -/
theorem begin_notification_failure_cex :
    findReq (processPoppedId envBeginNotifyFails sampleDb 1).1 1 =
      some { sampleReq with status := Status.failed } ∧
    statusTrace (processPoppedId envBeginNotifyFails sampleDb 1).2.1 =
      [Status.processing, Status.failed] := by
  exact ⟨by decide, by decide⟩

/-- C4 (amended): `available_credits` stays nonnegative under any
sequence of submissions, free grants, `/buy` commands, worker passes and
purchase confirmations *whose parsed callback quantity is nonnegative*;
`cmd_buy` itself never mutates the store and rejects a non-positive
quantity — but `callback_check_payment` applies any parsed integer, so a
negative-quantity payload can drive a balance negative (see the
counterexample). -/
theorem credits_nonneg_invariant (ops : List Op) (st : St)
    (hops : ∀ op ∈ ops, nonnegOp op) (hinv : creditsNonneg st) :
    creditsNonneg (ops.foldl step st) ∧
    (∀ (db : DB) (args : String), (cmd_buy db args).1 = db) ∧
    (∀ (db : DB) (args : String) (q : Int),
      pyInt? args = some q → q ≤ 0 → cmd_buy db args = (db, BuyReply.invalidQuantity)) := by
  refine ⟨foldl_step_creditsNonneg ops st hops hinv, cmd_buy_fst, ?_⟩
  intro db args q hq hle
  have hne : ¬ args = "" := by
    intro he
    rw [he] at hq
    have hq' : (none : Option Int) = some q := hq
    cases hq'
  unfold cmd_buy
  rw [if_neg hne]
  simp only [hq]
  rw [if_pos hle]

/-- C4 witness: the invariant holds across the sample operation sequence
started from the zero-credit store. -/
theorem credits_nonneg_invariant_witness :
    creditsNonneg (sampleOps.foldl step { db := sampleDbZero, queue := [] }) := by
  refine (credits_nonneg_invariant sampleOps { db := sampleDbZero, queue := [] } ?_ ?_).1
  · intro op hop
    simp only [sampleOps, List.mem_cons, List.not_mem_nil, or_false] at hop
    rcases hop with rfl | rfl | rfl | rfl | rfl
    · trivial
    · trivial
    · intro q hqq
      have hq2 : some (2 : Int) = some q := hqq
      cases hq2
      decide
    · trivial
    · trivial
  · show ∀ u ∈ ({ db := sampleDbZero, queue := [] } : St).db.users, 0 ≤ u.available_audits
    decide

/-- C4 counterexample: the callback payload "check_payment:-3" parses to
the quantity −3, `callback_check_payment` applies it without any
positivity check, and the zero-credit user's balance becomes −3 —
refuting the claim that the balance never goes negative under arbitrary
callback payloads.  The underscore-grouped payload "check_payment:-1_0"
likewise parses (`int("-1_0") = -10`) and drives the balance to −10. -/
theorem negative_purchase_callback_cex :
    (callback_check_payment sampleDbZero 7 "check_payment:-3").1.users.map
      (fun u => u.available_audits) = [-3] ∧
    (callback_check_payment sampleDbZero 7 "check_payment:-1_0").1.users.map
      (fun u => u.available_audits) = [-10] ∧
    ¬ creditsNonneg { db := (callback_check_payment sampleDbZero 7 "check_payment:-3").1,
                      queue := [] } := by
  refine ⟨by decide, by decide, ?_⟩
  intro hinv
  have h := hinv { sampleUserZero with available_audits := -3 } (by decide)
  exact absurd h (by decide)

/-- C5 (amended): the report body is keyed by the file name AND the
current date — for a fixed file name, two invocations produce the same
body exactly when their dates agree (the template interpolates
`datetime.now(timezone.utc).strftime('%d.%m.%Y')`). -/
theorem report_keyed_by_name_and_date (fn d1 d2 : String) :
    generate_html_report fn d1 = generate_html_report fn d2 ↔ d1 = d2 := by
  constructor
  · exact generate_html_report_date_inj fn d1 d2
  · intro h
    rw [h]

/-- C5 counterexample: the same file name on two different dates yields
two different bodies, refuting the claim that the output depends only on
the file name (and is independent of the time of invocation). -/
theorem report_differs_across_dates_cex :
    generate_html_report "contract.sol" "01.01.2024" ≠
      generate_html_report "contract.sol" "02.01.2024" := by
  intro h
  have hd := generate_html_report_date_inj "contract.sol" "01.01.2024" "02.01.2024" h
  exact absurd hd (by decide)

/-- C6: a submission whose lower-cased `os.path.splitext` extension is
not ".sol" is rejected as `invalid_extension` before any session is
opened: the state (users, requests, queue, credits) is exactly the input
state and no persistence event is emitted. -/
theorem invalid_extension_rejected (st : St) (info : UserInfo) (fn uid : String)
    (h : pyLower (splitext_ext fn) ≠ ".sol") :
    cmd_audit st info fn uid = (st, AuditReply.invalidExtension, []) := by
  simp only [cmd_audit]
  rw [if_pos h]

/-- C6 witness: submitting "contract.txt" is rejected with the state
unchanged. -/
theorem invalid_extension_rejected_witness :
    cmd_audit { db := sampleDbZero, queue := [] } sampleInfo "contract.txt" "aa" =
      ({ db := sampleDbZero, queue := [] }, AuditReply.invalidExtension, []) :=
  invalid_extension_rejected { db := sampleDbZero, queue := [] } sampleInfo
    "contract.txt" "aa" (by decide)

/-- C7: a user persisted with `available_audits = 0` has every submission
leave the state untouched (no request row, no queue entry, no credit
change), and a valid-extension submission is rejected with `no_credits`. -/
theorem zero_credits_rejected (st : St) (info : UserInfo) (u : User) (fn uid : String)
    (hu : findUserByTid st.db info.telegram_id = some u)
    (h0 : u.available_audits = 0) :
    (cmd_audit st info fn uid).1 = st ∧
    (pyLower (splitext_ext fn) = ".sol" →
      cmd_audit st info fn uid = (st, AuditReply.noCredits, [])) := by
  have hg : get_or_create_user st.db info = (st.db, u) := get_or_create_found st.db info u hu
  by_cases hext : pyLower (splitext_ext fn) = ".sol"
  · have hres : cmd_audit st info fn uid = (st, AuditReply.noCredits, []) := by
      simp only [cmd_audit]
      rw [if_neg (by simp [hext]), hg]
      rw [if_pos (le_of_eq h0)]
    exact ⟨by rw [hres], fun _ => hres⟩
  · have hres : cmd_audit st info fn uid = (st, AuditReply.invalidExtension, []) := by
      simp only [cmd_audit]
      rw [if_pos hext]
    exact ⟨by rw [hres], fun hc => absurd hc hext⟩

/-- C7 witness: the zero-credit sample user submitting "contract.sol" is
rejected with `no_credits` and nothing changes. -/
theorem zero_credits_rejected_witness :
    (cmd_audit { db := sampleDbZero, queue := [] } sampleInfo "contract.sol" "aa").1 =
      { db := sampleDbZero, queue := [] } ∧
    cmd_audit { db := sampleDbZero, queue := [] } sampleInfo "contract.sol" "aa" =
      ({ db := sampleDbZero, queue := [] }, AuditReply.noCredits, []) :=
  ⟨(zero_credits_rejected { db := sampleDbZero, queue := [] } sampleInfo sampleUserZero
      "contract.sol" "aa" (by decide) (by decide)).1,
   (zero_credits_rejected { db := sampleDbZero, queue := [] } sampleInfo sampleUserZero
      "contract.sol" "aa" (by decide) (by decide)).2 (by decide)⟩

/-- C8: the queue is FIFO — draining a queue built by any sequence of
`rpush`es returns exactly the pushed ids in order (the Nth id enqueued is
the Nth id dequeued); `rpush` then `lpop` on an empty queue round-trips;
and a submission only ever appends to the queue's tail. -/
theorem queue_fifo (ids : List Nat) (x : Nat) :
    (lpopN ids.length (ids.foldl rpush [])).1 = ids.map some ∧
    lpop (rpush [] x) = (some x, []) ∧
    (∀ (st : St) (info : UserInfo) (fn uid : String),
      ∃ tail, (cmd_audit st info fn uid).1.queue = st.queue ++ tail) := by
  refine ⟨?_, rfl, ?_⟩
  · rw [foldl_rpush ids [], List.nil_append]
    exact lpopN_all ids
  · intro st info fn uid
    rcases cmd_audit_queue_requests st info fn uid with ⟨hq, _⟩ | ⟨req, hq, _⟩
    · exact ⟨[], by rw [hq, List.append_nil]⟩
    · exact ⟨[req.id], hq⟩

/-- C9: the dequeue guard makes a worker pass over a missing or
non-`queued` request a complete no-op (store unchanged, no effects, no
escaping error), and replaying the same id immediately after a processed
pass is such a no-op — at-most-once processing. -/
theorem dequeue_guard_at_most_once (env env' : Env) (db : DB) (rid : Nat) :
    ((findReq db rid = none ∨ ∃ r, findReq db rid = some r ∧ r.status ≠ Status.queued) →
      processPoppedId env db rid = (db, [], none)) ∧
    (∀ r, findReq db rid = some r → r.status = Status.queued →
      processPoppedId env' (processPoppedId env db rid).1 rid =
        ((processPoppedId env db rid).1, [], none)) := by
  refine ⟨processPoppedId_noop env db rid, ?_⟩
  intro r hr hq
  obtain ⟨r', hr', hs⟩ := processPoppedId_final_status env db rid r hr hq
  refine processPoppedId_noop env' _ rid (Or.inr ⟨r', hr', ?_⟩)
  rcases hs with h | h <;> rw [h] <;> decide

/-- C9 witness: a pass over the already-completed sample request is a
no-op, and replaying id 1 right after its first (queued) pass is a
no-op. -/
theorem dequeue_guard_at_most_once_witness :
    processPoppedId envAllOk sampleDbCompleted 1 = (sampleDbCompleted, [], none) ∧
    processPoppedId envAllOk (processPoppedId envAllOk sampleDb 1).1 1 =
      ((processPoppedId envAllOk sampleDb 1).1, [], none) :=
  ⟨(dequeue_guard_at_most_once envAllOk envAllOk sampleDbCompleted 1).1
     (Or.inr ⟨{ sampleReq with status := Status.completed }, by decide, by decide⟩),
   (dequeue_guard_at_most_once envAllOk envAllOk sampleDb 1).2 sampleReq
     (by decide) (by decide)⟩

/-- C10: an accepted submission commits the debit and the new `queued`
request row in the single transaction event `dbCommit`, and only then
pushes the id (`redisPush` after `dbCommit` in the event trace); the
post-state shows the new request persisted with status `queued`, the
submitter debited by one, the id appended to the queue tail, and the
advisory position equal to the new queue length; moreover every
operation preserves the invariant that each id in the queue refers to a
persisted request row. -/
theorem submission_atomic (st : St) (info : UserInfo) (u : User) (fn uid : String)
    (hext : pyLower (splitext_ext fn) = ".sol")
    (hu : findUserByTid st.db info.telegram_id = some u)
    (hpos : 0 < u.available_audits) :
    (cmd_audit st info fn uid).2.2 =
      [SubmitEv.dbCommit st.db.nextReqId, SubmitEv.redisPush st.db.nextReqId] ∧
    (cmd_audit st info fn uid).1.queue = st.queue ++ [st.db.nextReqId] ∧
    ({ id := st.db.nextReqId, user_id := u.id, file_name := fn,
       file_path := "uploads/" ++ uid ++ ".sol",
       report_path := "reports/" ++ uid ++ "_report.html",
       status := Status.queued } : AuditRequest) ∈ (cmd_audit st info fn uid).1.db.requests ∧
    findUserByTid (cmd_audit st info fn uid).1.db info.telegram_id =
      some { u with available_audits := u.available_audits - 1 } ∧
    (cmd_audit st info fn uid).2.1 = AuditReply.queuedAt (st.queue.length + 1) ∧
    (∀ (st₀ : St) (op : Op), queueBacked st₀ → queueBacked (step st₀ op)) := by
  have hg : get_or_create_user st.db info = (st.db, u) := get_or_create_found st.db info u hu
  have hcond : ¬ ((st.db, u).2.available_audits ≤ 0) := by
    show ¬ (u.available_audits ≤ 0)
    omega
  have hres : cmd_audit st info fn uid =
      ({ db := { users := (setUserCredits st.db u.id (u.available_audits - 1)).users,
                 requests := st.db.requests ++
                   [{ id := st.db.nextReqId, user_id := u.id, file_name := fn,
                      file_path := "uploads/" ++ uid ++ ".sol",
                      report_path := "reports/" ++ uid ++ "_report.html",
                      status := Status.queued }],
                 nextUserId := st.db.nextUserId,
                 nextReqId := st.db.nextReqId + 1 },
         queue := st.queue ++ [st.db.nextReqId] },
       AuditReply.queuedAt (st.queue ++ [st.db.nextReqId]).length,
       [SubmitEv.dbCommit st.db.nextReqId, SubmitEv.redisPush st.db.nextReqId]) := by
    simp only [cmd_audit]
    rw [if_neg (by simp [hext]), hg, if_neg hcond]
    rfl
  refine ⟨by rw [hres], by rw [hres], ?_, ?_, ?_,
    fun st₀ op h => step_queueBacked st₀ op h⟩
  · rw [hres]
    exact List.mem_append_right _ (List.mem_singleton.mpr rfl)
  · rw [hres]
    show findUserByTid (setUserCredits st.db u.id (u.available_audits - 1))
        info.telegram_id = some { u with available_audits := u.available_audits - 1 }
    rw [findUserByTid_setUserCredits, hu]
    simp
  · rw [hres]
    simp [List.length_append]

/-- C10 witness: the five-credit sample user's accepted submission emits
the commit before the push, persists request 2 as `queued`, debits to
four credits, and reports position 1. -/
theorem submission_atomic_witness :
    (cmd_audit { db := sampleDb, queue := [] } sampleInfo "contract.sol" "aa").2.2 =
      [SubmitEv.dbCommit 2, SubmitEv.redisPush 2] ∧
    (cmd_audit { db := sampleDb, queue := [] } sampleInfo "contract.sol" "aa").1.queue =
      [] ++ [2] ∧
    (cmd_audit { db := sampleDb, queue := [] } sampleInfo "contract.sol" "aa").2.1 =
      AuditReply.queuedAt 1 :=
  ⟨(submission_atomic { db := sampleDb, queue := [] } sampleInfo sampleUser
      "contract.sol" "aa" (by decide) (by decide) (by decide)).1,
   (submission_atomic { db := sampleDb, queue := [] } sampleInfo sampleUser
      "contract.sol" "aa" (by decide) (by decide) (by decide)).2.1,
   (submission_atomic { db := sampleDb, queue := [] } sampleInfo sampleUser
      "contract.sol" "aa" (by decide) (by decide) (by decide)).2.2.2.2.1⟩

end CMAtBot
